import Mathlib

/-!
Verification of the student attendance tracker (storage / identity / roster core).

The JavaScript source is shallowly embedded: each handler becomes a pure Lean
function over explicit state; JS exceptions become `Except Err`; the status
field stays a `String` exactly as in the source ('Present' / 'Absent' /
'Unmarked'); JS falsiness of a string is emptiness, of a parsed year is zero.
-/

namespace Attendance

/-- Error kinds raised synchronously by the handlers. -/
inductive Err where
  | validation
  | conflict
  | notFound
  | authentication
deriving DecidableEq, Repr

/-- A teacher record as stored: `password` holds the hex digest. -/
structure Teacher where
  id : String
  username : String
  password : String
  createdAt : String
deriving DecidableEq, Repr

/-- A student roster record. -/
structure Student where
  id : String
  teacherId : String
  name : String
  studentId : String
  course : String
  year : Nat
  status : String
  createdAt : String
deriving DecidableEq, Repr

/-- The session record written at login: the teacher minus its digest. -/
structure Session where
  id : String
  username : String
  createdAt : String
deriving DecidableEq, Repr

/-- Persisted application state: the two collections and the current session. -/
structure AppState where
  teachers : List Teacher
  students : List Student
  currentUser : Option Session
deriving DecidableEq, Repr

/-- The flip rule of App.handleToggleAttendance:
`newStatus = currentStatus === 'Present' ? 'Absent' : 'Present'`. -/
def toggleStatus (currentStatus : String) : String :=
  if currentStatus == "Present" then "Absent" else "Present"

/-- JS `students.find(s => s.id === id)`: first record with the given id. -/
def findStudent (id : String) : List Student → Option Student
  | [] => none
  | s :: rest => if s.id == id then some s else findStudent id rest

/-- JS `students.findIndex(s => s.id === id) !== -1`. -/
def containsId (id : String) : List Student → Bool
  | [] => false
  | s :: rest => s.id == id || containsId id rest

/-- In-place assignment at the found index: rewrite the first record whose id
matches, leave everything else untouched. -/
def updateFirst (id : String) (f : Student → Student) : List Student → List Student
  | [] => []
  | s :: rest => if s.id == id then f s :: rest else s :: updateFirst id f rest

/-- App.handleToggleAttendance on the students collection: `findIndex`, throw
NotFound on -1, else assign the flipped status at that index. -/
def toggleAttendance (id : String) (students : List Student) :
    Except Err (List Student) :=
  if containsId id students then
    Except.ok (updateFirst id (fun s => { s with status := toggleStatus s.status }) students)
  else
    Except.error Err.notFound

theorem containsId_eq_isSome (id : String) (students : List Student) :
    containsId id students = (findStudent id students).isSome := by
  induction students with
  | nil => rfl
  | cons s rest ih =>
    cases h : s.id == id <;> simp [containsId, findStudent, h, ih]

theorem updateFirst_of_fix (id : String) (f : Student → Student)
    (students : List Student) (s : Student)
    (h : findStudent id students = some s) (hf : f s = s) :
    updateFirst id f students = students := by
  induction students with
  | nil => simp [findStudent] at h
  | cons a rest ih =>
    cases ha : a.id == id with
    | true =>
      simp [findStudent, ha] at h
      simp [updateFirst, ha, h ▸ hf]
    | false =>
      simp [findStudent, ha] at h
      simp [updateFirst, ha, ih h]

theorem findStudent_updateFirst (id : String) (f : Student → Student)
    (hid : ∀ s, (f s).id = s.id) (students : List Student) (s : Student)
    (h : findStudent id students = some s) :
    findStudent id (updateFirst id f students) = some (f s) := by
  induction students with
  | nil => simp [findStudent] at h
  | cons a rest ih =>
    cases ha : a.id == id with
    | true =>
      simp [findStudent, ha] at h
      subst h
      simp [updateFirst, findStudent, ha, hid a]
    | false =>
      simp [findStudent, ha] at h
      simp [updateFirst, findStudent, ha, ih h]

theorem containsId_updateFirst (id : String) (f : Student → Student)
    (hid : ∀ s, (f s).id = s.id) (students : List Student) :
    containsId id (updateFirst id f students) = containsId id students := by
  induction students with
  | nil => rfl
  | cons a rest ih =>
    cases ha : a.id == id with
    | true => simp [updateFirst, containsId, ha, hid a]
    | false => simp [updateFirst, containsId, ha, ih]

theorem updateFirst_comp (id : String) (f g : Student → Student)
    (hid : ∀ s, (f s).id = s.id) (students : List Student) :
    updateFirst id g (updateFirst id f students)
      = updateFirst id (fun s => g (f s)) students := by
  induction students with
  | nil => rfl
  | cons a rest ih =>
    cases ha : a.id == id with
    | true => simp [updateFirst, ha, hid a]
    | false => simp [updateFirst, ha, ih]

/-- C1: a student whose status is Present or Absent returns to its original
status after two attendance toggles (indeed the whole collection is restored);
a student whose status is Unmarked goes to Present on the first toggle and to
Absent on the second, so the double-toggle law fails for Unmarked. -/
theorem C1_toggle_twice (students : List Student) (id : String) (s : Student)
    (hfind : findStudent id students = some s) :
    (s.status = "Present" ∨ s.status = "Absent" →
      ∃ once, toggleAttendance id students = Except.ok once ∧
              toggleAttendance id once = Except.ok students) ∧
    (s.status = "Unmarked" →
      ∃ once twice,
        toggleAttendance id students = Except.ok once ∧
        findStudent id once = some { s with status := "Present" } ∧
        toggleAttendance id once = Except.ok twice ∧
        findStudent id twice = some { s with status := "Absent" } ∧
        twice ≠ students) := by
  have hid : ∀ t : Student, (Student.mk t.id t.teacherId t.name t.studentId t.course
      t.year (toggleStatus t.status) t.createdAt).id = t.id := fun _ => rfl
  have hc : containsId id students = true := by
    rw [containsId_eq_isSome, hfind]; rfl
  have honce :
      toggleAttendance id students
        = Except.ok (updateFirst id
            (fun t => { t with status := toggleStatus t.status }) students) := by
    simp [toggleAttendance, hc]
  have hfind1 := findStudent_updateFirst id
      (fun t => { t with status := toggleStatus t.status }) hid students s hfind
  have hc1 : containsId id (updateFirst id
      (fun t => { t with status := toggleStatus t.status }) students) = true := by
    rw [containsId_updateFirst id _ hid, hc]
  constructor
  · intro hstat
    refine ⟨_, honce, ?_⟩
    have hcomp := updateFirst_comp id
      (fun t => { t with status := toggleStatus t.status })
      (fun t => { t with status := toggleStatus t.status }) hid students
    have hfix : (fun t : Student => { t with status := toggleStatus t.status })
        ({ s with status := toggleStatus s.status }) = s := by
      obtain ⟨a, b, c, d, e, f, g, h⟩ := s
      rcases hstat with hstat | hstat <;> simp_all [toggleStatus]
    simp only [toggleAttendance, hc1, if_true]
    rw [hcomp, updateFirst_of_fix id _ students s hfind hfix]
  · intro hstat
    have h1 : ({ s with status := toggleStatus s.status } : Student)
        = { s with status := "Present" } := by
      simp [toggleStatus, hstat]
    have htwice :
        toggleAttendance id (updateFirst id
            (fun t => { t with status := toggleStatus t.status }) students)
          = Except.ok (updateFirst id (fun t => { t with status := toggleStatus t.status })
              (updateFirst id (fun t => { t with status := toggleStatus t.status }) students)) := by
      simp [toggleAttendance, hc1]
    refine ⟨_, _, honce, h1 ▸ hfind1, htwice, ?_, ?_⟩
    · have := findStudent_updateFirst id
        (fun t => { t with status := toggleStatus t.status }) hid _ _ hfind1
      rw [this]
      simp [toggleStatus, hstat]
    · intro heq
      have hf2 := findStudent_updateFirst id
        (fun t => { t with status := toggleStatus t.status }) hid _ _ hfind1
      rw [heq, hfind] at hf2
      have h2 : toggleStatus (toggleStatus s.status) = s.status := by
        have := congrArg (fun o => (o.map Student.status).getD "") hf2
        simpa using this.symm
      rw [hstat] at h2
      simp [toggleStatus] at h2

/-- A concrete run of C1: one student, status Present, restored by two toggles. -/
theorem C1_witness :
    ∃ once,
      toggleAttendance "s1"
          [Student.mk "s1" "t1" "John Smith" "2024-001" "WAD" 3 "Present" "now"]
        = Except.ok once ∧
      toggleAttendance "s1" once
        = Except.ok
            [Student.mk "s1" "t1" "John Smith" "2024-001" "WAD" 3 "Present" "now"] :=
  (C1_toggle_twice
      [Student.mk "s1" "t1" "John Smith" "2024-001" "WAD" 3 "Present" "now"]
      "s1"
      (Student.mk "s1" "t1" "John Smith" "2024-001" "WAD" 3 "Present" "now")
      (by decide)).1 (Or.inl rfl)

/-- JS `String.prototype.toLowerCase`, embedded as a character-wise map. -/
def strLower (s : String) : String :=
  String.mk (s.data.map Char.toLower)

/-- Demo records used to run the theorems on concrete data. -/
def demoP1 : Student := ⟨"s1", "tA", "John Smith", "2024-001", "WAD", 3, "Present", "d1"⟩

def demoP2 : Student := ⟨"s2", "tA", "Emma Johnson", "2024-002", "OMT", 2, "Present", "d2"⟩

def demoA1 : Student := ⟨"s3", "tA", "Michael Brown", "2024-003", "WAD", 3, "Absent", "d3"⟩

def demoU1 : Student := ⟨"s4", "tB", "Johnny Appleseed", "2024-004", "HM", 1, "Unmarked", "d4"⟩

def demoRoster : List Student := [demoP1, demoP2, demoA1, demoU1]

/-- The four counters shown on the dashboard cards. -/
structure Stats where
  total : Nat
  present : Nat
  absent : Nat
  unmarked : Nat
deriving DecidableEq, Repr

/-- UI.updateStats: length of the list plus one filter per status literal. -/
def updateStats (students : List Student) : Stats :=
  { total := students.length
    present := (students.filter (fun s => s.status == "Present")).length
    absent := (students.filter (fun s => s.status == "Absent")).length
    unmarked := (students.filter (fun s => s.status == "Unmarked")).length }

/-- C9: stats is a pure reduction over the given list — total is the length and
each counter counts its own status; the empty list yields {0,0,0,0} and the
demo roster with 2 Present, 1 Absent, 1 Unmarked yields {4,2,1,1}. -/
theorem C9_stats (students : List Student) :
    (updateStats students).total = students.length ∧
    (updateStats students).present = students.countP (fun s => s.status == "Present") ∧
    (updateStats students).absent = students.countP (fun s => s.status == "Absent") ∧
    (updateStats students).unmarked = students.countP (fun s => s.status == "Unmarked") ∧
    updateStats [] = ⟨0, 0, 0, 0⟩ ∧
    updateStats demoRoster = ⟨4, 2, 1, 1⟩ := by
  refine ⟨rfl, ?_, ?_, ?_, rfl, by decide⟩ <;>
    simp [updateStats, List.countP_eq_length_filter]

/-- App.handleDeleteConfirm core: findIndex, NotFound on -1, else keep every
record whose id differs from the deleted one. -/
def deleteStudent (id : String) (students : List Student) :
    Except Err (List Student) :=
  if containsId id students then
    Except.ok (students.filter (fun s => s.id != id))
  else
    Except.error Err.notFound

/-- The collection the handler leaves in storage: the new list on success, the
untouched original when the handler threw before saving. -/
def applyResult (students : List Student) (r : Except Err (List Student)) :
    List Student :=
  match r with
  | Except.ok l => l
  | Except.error _ => students

theorem filter_ne_of_not_mem (students : List Student) (id : String)
    (h : ∀ x ∈ students, x.id ≠ id) :
    students.filter (fun t => t.id != id) = students := by
  induction students with
  | nil => rfl
  | cons a rest ih =>
    have ha := h a (by simp)
    simp only [List.filter_cons]
    rw [if_pos (by simpa using ha)]
    rw [ih fun x hx => h x (by simp [hx])]

theorem filter_ne_decomp (students : List Student) (id : String)
    (hnodup : (students.map Student.id).Nodup) (s : Student)
    (h : findStudent id students = some s) :
    ∃ pre post, students = pre ++ s :: post ∧
      students.filter (fun t => t.id != id) = pre ++ post := by
  induction students with
  | nil => simp [findStudent] at h
  | cons a rest ih =>
    simp only [List.map_cons, List.nodup_cons] at hnodup
    cases ha : a.id == id with
    | true =>
      have haid : a.id = id := by simpa using ha
      have heq : a = s := by simpa [findStudent, ha] using h
      subst heq
      have hrest : ∀ x ∈ rest, x.id ≠ id := by
        intro x hx hxid
        have hmem : x.id ∈ List.map Student.id rest := List.mem_map_of_mem Student.id hx
        rw [hxid, ← haid] at hmem
        exact hnodup.1 hmem
      refine ⟨[], rest, by simp, ?_⟩
      simp only [List.filter_cons]
      rw [if_neg (by simp [haid]), filter_ne_of_not_mem rest id hrest]
      simp
    | false =>
      simp only [findStudent, ha, if_false] at h
      obtain ⟨pre, post, hsplit, hfilter⟩ := ih hnodup.2 h
      refine ⟨a :: pre, post, by simp [hsplit], ?_⟩
      simp only [List.filter_cons]
      rw [if_pos (by simpa using ha), hfilter]
      simp

/-- C7: when a record with the id exists (ids being distinct), delete succeeds
and removes exactly that record, keeping everything else in order; when no
record has the id, delete fails with NotFoundError and the stored collection
is left entirely unchanged. -/
theorem C7_delete (students : List Student) (id : String)
    (hnodup : (students.map Student.id).Nodup) :
    (∀ s, findStudent id students = some s →
      ∃ pre post, students = pre ++ s :: post ∧
        deleteStudent id students = Except.ok (pre ++ post)) ∧
    (findStudent id students = none →
      deleteStudent id students = Except.error Err.notFound ∧
      applyResult students (deleteStudent id students) = students) := by
  constructor
  · intro s hfind
    obtain ⟨pre, post, hsplit, hfilter⟩ := filter_ne_decomp students id hnodup s hfind
    have hc : containsId id students = true := by
      rw [containsId_eq_isSome, hfind]; rfl
    exact ⟨pre, post, hsplit, by simp [deleteStudent, hc, hfilter]⟩
  · intro hfind
    have hc : containsId id students = false := by
      rw [containsId_eq_isSome, hfind]; rfl
    constructor
    · simp [deleteStudent, hc]
    · simp [deleteStudent, hc, applyResult]

/-- A concrete run of C7: deleting s1 from the demo roster removes exactly it. -/
theorem C7_witness :
    ∃ pre post, demoRoster = pre ++ demoP1 :: post ∧
      deleteStudent "s1" demoRoster = Except.ok (pre ++ post) :=
  (C7_delete demoRoster "s1" (by decide)).1 demoP1 (by decide)

/-- App.handleAddStudent after the session guard: field validation, duplicate
studentId check within the same teacher, then push of the new record with
status Unmarked and a freshly generated id. -/
def addStudent (teacherId name studentId course : String) (year : Nat)
    (freshId now : String) (students : List Student) :
    Except Err (List Student) :=
  if name == "" || studentId == "" || course == "" || year == 0 then
    Except.error Err.validation
  else if students.any (fun s => s.teacherId == teacherId &&
      strLower s.studentId == strLower studentId) then
    Except.error Err.conflict
  else
    Except.ok (students ++
      [⟨freshId, teacherId, name, studentId, course, year, "Unmarked", now⟩])

theorem addStudent_ok (teacherId name studentId course : String) (year : Nat)
    (freshId now : String) (students result : List Student)
    (h : addStudent teacherId name studentId course year freshId now students
      = Except.ok result) :
    result = students ++
      [⟨freshId, teacherId, name, studentId, course, year, "Unmarked", now⟩] := by
  unfold addStudent at h
  split at h
  · exact absurd h (by simp)
  · split at h
    · exact absurd h (by simp)
    · simpa using h.symm

/-- C4: add fails with ValidationError exactly when a field is empty (year
falsy); given valid fields it fails with ConflictError exactly when the same
teacher already has the studentId case-insensitively — one owned by another
teacher does not conflict — and otherwise appends exactly one new record with
status Unmarked and the freshly generated id. -/
theorem C4_add (teacherId name studentId course : String) (year : Nat)
    (freshId now : String) (students : List Student) :
    (addStudent teacherId name studentId course year freshId now students
        = Except.error Err.validation ↔
      name = "" ∨ studentId = "" ∨ course = "" ∨ year = 0) ∧
    (¬ (name = "" ∨ studentId = "" ∨ course = "" ∨ year = 0) →
      (addStudent teacherId name studentId course year freshId now students
          = Except.error Err.conflict ↔
        ∃ s ∈ students, s.teacherId = teacherId ∧
          strLower s.studentId = strLower studentId)) ∧
    (¬ (name = "" ∨ studentId = "" ∨ course = "" ∨ year = 0) →
      (∀ s ∈ students, s.teacherId = teacherId →
        strLower s.studentId ≠ strLower studentId) →
      addStudent teacherId name studentId course year freshId now students
        = Except.ok (students ++
            [⟨freshId, teacherId, name, studentId, course, year, "Unmarked", now⟩])) := by
  by_cases hval : name = "" ∨ studentId = "" ∨ course = "" ∨ year = 0
  · have hcond : (name == "" || studentId == "" || course == "" || year == 0) = true := by
      rcases hval with h | h | h | h <;> simp [h]
    refine ⟨by simp [addStudent, hcond, hval], fun h => absurd hval h, fun h => absurd hval h⟩
  · have hcond : (name == "" || studentId == "" || course == "" || year == 0) = false := by
      push_neg at hval
      simp [hval.1, hval.2.1, hval.2.2.1, hval.2.2.2]
    by_cases hdup : ∃ s ∈ students, s.teacherId = teacherId ∧
        strLower s.studentId = strLower studentId
    · have hany : (students.any (fun s => s.teacherId == teacherId &&
          strLower s.studentId == strLower studentId)) = true := by
        obtain ⟨s, hs, h1, h2⟩ := hdup
        exact List.any_eq_true.mpr ⟨s, hs, by simp [h1, h2]⟩
      refine ⟨by simp [addStudent, hcond, hany, hval], fun _ => ⟨fun _ => hdup, fun _ => ?_⟩,
        fun _ hno => ?_⟩
      · simp [addStudent, hcond, hany]
      · obtain ⟨s, hs, h1, h2⟩ := hdup
        exact absurd h2 (hno s hs h1)
    · have hany : (students.any (fun s => s.teacherId == teacherId &&
          strLower s.studentId == strLower studentId)) = false := by
        rw [Bool.eq_false_iff]
        intro hc
        obtain ⟨s, hs, hp⟩ := List.any_eq_true.mp hc
        simp only [Bool.and_eq_true, beq_iff_eq] at hp
        exact hdup ⟨s, hs, hp.1, hp.2⟩
      refine ⟨by simp [addStudent, hcond, hany, hval], fun _ => ⟨?_, fun h => absurd h hdup⟩,
        fun _ _ => by simp [addStudent, hcond, hany]⟩
      intro hc
      simp [addStudent, hcond, hany] at hc

/-- A concrete run of C4: adding a fresh student to the demo roster succeeds
even though teacher tB already uses studentId 2024-004. -/
theorem C4_witness :
    ¬ ("Ana Lopez" = "" ∨ "2024-004" = "" ∨ "WAD" = "" ∨ (2 : Nat) = 0) ∧
    addStudent "tA" "Ana Lopez" "2024-004" "WAD" 2 "s9" "d9" demoRoster
      = Except.ok (demoRoster ++
          [⟨"s9", "tA", "Ana Lopez", "2024-004", "WAD", 2, "Unmarked", "d9"⟩]) :=
  ⟨by decide,
    (C4_add "tA" "Ana Lopez" "2024-004" "WAD" 2 "s9" "d9" demoRoster).2.2
      (by decide) (by decide)⟩

/-- Head-anchored match on character lists (one step of substring search). -/
def charsPre : List Char → List Char → Bool
  | [], _ => true
  | _ :: _, [] => false
  | a :: as, b :: bs => a == b && charsPre as bs

/-- Substring occurrence on character lists. -/
def charsSub : List Char → List Char → Bool
  | sub, [] => sub.isEmpty
  | sub, c :: rest => charsPre sub (c :: rest) || charsSub sub rest

/-- JS `String.prototype.includes`: does `s` contain `sub`? -/
def strIncludes (s sub : String) : Bool :=
  charsSub sub.data s.data

/-- UI.renderStudentsTable filter pipeline: teacher scope, then the optional
case-insensitive search over name or studentId, then the optional course
equality. -/
def listStudents (students : List Student)
    (teacherId searchQuery courseFilter : String) : List Student :=
  let byTeacher := students.filter (fun s => s.teacherId == teacherId)
  let bySearch :=
    if searchQuery == "" then byTeacher
    else
      byTeacher.filter (fun s =>
        strIncludes (strLower s.name) (strLower searchQuery) ||
        strIncludes (strLower s.studentId) (strLower searchQuery))
  if courseFilter == "" then bySearch
  else bySearch.filter (fun s => s.course == courseFilter)

/-- C8: list is the order-preserving subsequence of exactly those students of
the given teacher that match the case-insensitive search over name or
studentId (when a query is supplied) and the course filter (when supplied),
the optional filters composing by AND; students of other teachers never
appear. -/
theorem C8_list (students : List Student)
    (teacherId searchQuery courseFilter : String) :
    listStudents students teacherId searchQuery courseFilter
      = students.filter (fun s =>
          s.teacherId == teacherId &&
          (searchQuery == "" ||
            (strIncludes (strLower s.name) (strLower searchQuery) ||
             strIncludes (strLower s.studentId) (strLower searchQuery))) &&
          (courseFilter == "" || s.course == courseFilter)) ∧
    (listStudents students teacherId searchQuery courseFilter).Sublist students ∧
    ∀ s ∈ listStudents students teacherId searchQuery courseFilter,
      s.teacherId = teacherId := by
  have hmain : listStudents students teacherId searchQuery courseFilter
      = students.filter (fun s =>
          s.teacherId == teacherId &&
          (searchQuery == "" ||
            (strIncludes (strLower s.name) (strLower searchQuery) ||
             strIncludes (strLower s.studentId) (strLower searchQuery))) &&
          (courseFilter == "" || s.course == courseFilter)) := by
    cases hq : searchQuery == "" <;> cases hc : courseFilter == "" <;>
      simp [listStudents, hq, hc, List.filter_filter, Bool.and_comm,
        Bool.and_left_comm, Bool.and_assoc]
  refine ⟨hmain, ?_, ?_⟩
  · rw [hmain]; exact List.filter_sublist students
  · intro s hs
    rw [hmain] at hs
    simp only [List.mem_filter, Bool.and_eq_true, beq_iff_eq] at hs
    exact hs.2.1.1

/-- A concrete run of C8: searching "john" as teacher tA matches John Smith and
Emma Johnson but never tB's Johnny Appleseed. -/
theorem C8_witness :
    listStudents demoRoster "tA" "john" ""
      = demoRoster.filter (fun s =>
          s.teacherId == "tA" &&
          (("john" : String) == "" ||
            (strIncludes (strLower s.name) (strLower "john") ||
             strIncludes (strLower s.studentId) (strLower "john"))) &&
          (("" : String) == "" || s.course == "")) ∧
    listStudents demoRoster "tA" "john" "" = [demoP1, demoP2] :=
  ⟨(C8_list demoRoster "tA" "john" "").1, by decide⟩

/-- The in-place field replacement of App.handleEditStudent:
`{...students[studentIndex], name, studentId, course, year}`. -/
def editFields (name studentIdInput course : String) (year : Nat)
    (s : Student) : Student :=
  { s with name := name, studentId := studentIdInput, course := course, year := year }

/-- App.handleEditStudent core: field validation, lookup of the record id
(NotFound on -1), duplicate studentId check against the session teacher's
other records, then in-place replacement of the mutable fields at the found
index. -/
def editStudent (sessionTeacherId recordId name studentIdInput course : String)
    (year : Nat) (students : List Student) : Except Err (List Student) :=
  if name == "" || studentIdInput == "" || course == "" || year == 0 then
    Except.error Err.validation
  else if containsId recordId students then
    if students.any (fun s => s.id != recordId && s.teacherId == sessionTeacherId &&
        strLower s.studentId == strLower studentIdInput) then
      Except.error Err.conflict
    else
      Except.ok (updateFirst recordId
        (editFields name studentIdInput course year) students)
  else
    Except.error Err.notFound

theorem updateFirst_decomp (id : String) (f : Student → Student)
    (students : List Student) (s : Student)
    (h : findStudent id students = some s) :
    ∃ pre post, students = pre ++ s :: post ∧ (∀ x ∈ pre, x.id ≠ id) ∧
      updateFirst id f students = pre ++ f s :: post := by
  induction students with
  | nil => simp [findStudent] at h
  | cons a rest ih =>
    cases ha : a.id == id with
    | true =>
      have heq : a = s := by simpa [findStudent, ha] using h
      subst heq
      exact ⟨[], rest, by simp, by simp, by simp [updateFirst, ha]⟩
    | false =>
      have h2 : findStudent id rest = some s := by simpa [findStudent, ha] using h
      obtain ⟨pre, post, hsplit, hpre, hupd⟩ := ih h2
      refine ⟨a :: pre, post, by simp [hsplit], ?_, by simp [updateFirst, ha, hupd]⟩
      intro x hx
      rcases List.mem_cons.mp hx with rfl | hx
      · simpa using ha
      · exact hpre x hx

/-- C6: with nonempty fields, edit fails with NotFoundError when the record id
is absent; on a record owned by the session teacher it fails with
ConflictError exactly when the new studentId collides case-insensitively with
a different record of that same teacher; on success it rewrites exactly the
target record — name, studentId, course and year take the supplied values
while id, teacherId, status and createdAt are preserved — and every other
record stays in place unchanged. -/
theorem C6_edit (sessionTeacherId recordId name studentIdInput course : String)
    (year : Nat) (students : List Student)
    (hname : name ≠ "") (hsid : studentIdInput ≠ "")
    (hcourse : course ≠ "") (hyear : year ≠ 0) :
    (findStudent recordId students = none →
      editStudent sessionTeacherId recordId name studentIdInput course year students
        = Except.error Err.notFound) ∧
    (∀ s, findStudent recordId students = some s →
      s.teacherId = sessionTeacherId →
      ((editStudent sessionTeacherId recordId name studentIdInput course year students
          = Except.error Err.conflict) ↔
        ∃ other ∈ students, other.id ≠ recordId ∧ other.teacherId = s.teacherId ∧
          strLower other.studentId = strLower studentIdInput) ∧
      (∀ result,
        editStudent sessionTeacherId recordId name studentIdInput course year students
          = Except.ok result →
        ∃ pre post, students = pre ++ s :: post ∧
          result = pre ++
            { s with name := name, studentId := studentIdInput,
                     course := course, year := year } :: post)) := by
  have hcond : (name == "" || studentIdInput == "" || course == "" || year == 0)
      = false := by
    simp [hname, hsid, hcourse, hyear]
  constructor
  · intro hfind
    have hc : containsId recordId students = false := by
      rw [containsId_eq_isSome, hfind]; rfl
    simp [editStudent, hcond, hc]
  · intro s hfind hteacher
    have hc : containsId recordId students = true := by
      rw [containsId_eq_isSome, hfind]; rfl
    subst hteacher
    constructor
    · constructor
      · intro hconf
        simp only [editStudent, hcond, Bool.false_eq_true, if_false, hc, if_true] at hconf
        split at hconf
        case isTrue hany =>
          obtain ⟨other, hmem, hp⟩ := List.any_eq_true.mp hany
          simp only [Bool.and_eq_true, bne_iff_ne, beq_iff_eq] at hp
          exact ⟨other, hmem, hp.1.1, hp.1.2, hp.2⟩
        case isFalse hany => exact absurd hconf (by simp)
      · intro ⟨other, hmem, h1, h2, h3⟩
        have hany : (students.any (fun t => t.id != recordId &&
            t.teacherId == s.teacherId && strLower t.studentId == strLower studentIdInput))
              = true :=
          List.any_eq_true.mpr ⟨other, hmem, by simp [h1, h2, h3]⟩
        simp [editStudent, hcond, hc, hany]
    · intro result hok
      simp only [editStudent, hcond, Bool.false_eq_true, if_false, hc, if_true] at hok
      split at hok
      case isTrue hany => exact absurd hok (by simp)
      case isFalse hany =>
        have hres : result = updateFirst recordId
            (editFields name studentIdInput course year) students := by
          simpa using hok.symm
        obtain ⟨pre, post, hsplit, _, hupd⟩ := updateFirst_decomp recordId
          (editFields name studentIdInput course year) students s hfind
        refine ⟨pre, post, hsplit, ?_⟩
        rw [hres, hupd]
        simp [editFields]

/-- A concrete run of C6: editing s1 in the demo roster rewrites exactly that
record and keeps its Present status. -/
theorem C6_witness :
    ∃ pre post, demoRoster = pre ++ demoP1 :: post ∧
      [⟨"s1", "tA", "Johnny S", "2024-011", "WAD", 4, "Present", "d1"⟩,
        demoP2, demoA1, demoU1]
        = pre ++ { demoP1 with name := "Johnny S", studentId := "2024-011", course := "WAD", year := 4 } :: post :=
  ((C6_edit "tA" "s1" "Johnny S" "2024-011" "WAD" 4 demoRoster (by decide)
      (by decide) (by decide) (by decide)).2 demoP1 (by decide) (by decide)).2
    [⟨"s1", "tA", "Johnny S", "2024-011", "WAD", 4, "Present", "d1"⟩,
      demoP2, demoA1, demoU1]
    (by rfl)

/-- JS `String.prototype.trim`: strip leading and trailing whitespace. -/
def strTrim (s : String) : String :=
  String.mk (((s.data.dropWhile Char.isWhitespace).reverse.dropWhile
    Char.isWhitespace).reverse)

/-- Auth.login: validation of both fields, digest-comparison lookup over the
stored teachers, then the session write excluding the password digest. -/
def login (hash : String → String) (username password : String) (st : AppState) :
    Except Err Session × AppState :=
  if username == "" || password == "" then
    (Except.error Err.validation, st)
  else
    let hashedPassword := hash password
    match st.teachers.find? (fun t =>
        strLower t.username == strLower username && t.password == hashedPassword) with
    | none => (Except.error Err.authentication, st)
    | some t =>
      let sessionUser : Session := ⟨t.id, t.username, t.createdAt⟩
      (Except.ok sessionUser, { st with currentUser := some sessionUser })

/-- C2: login fails with ValidationError when either field is empty; with both
nonempty it succeeds exactly when some stored teacher matches the input
username case-insensitively and its stored digest equals the digest of the
input password, failing with AuthenticationError (state untouched) otherwise;
on success the written Session carries exactly the matched teacher's id,
username and createdAt, the digest excluded. -/
theorem C2_login (hash : String → String) (username password : String)
    (st : AppState) :
    ((username = "" ∨ password = "") →
      login hash username password st = (Except.error Err.validation, st)) ∧
    (username ≠ "" → password ≠ "" →
      ((∃ t ∈ st.teachers, strLower t.username = strLower username ∧
            t.password = hash password) ↔
        ∃ sess, (login hash username password st).1 = Except.ok sess) ∧
      (∀ e, (login hash username password st).1 = Except.error e →
        e = Err.authentication ∧ (login hash username password st).2 = st) ∧
      ∀ sess, (login hash username password st).1 = Except.ok sess →
        ∃ t ∈ st.teachers, strLower t.username = strLower username ∧
          t.password = hash password ∧
          sess = ⟨t.id, t.username, t.createdAt⟩ ∧
          (login hash username password st).2
            = { st with currentUser := some sess }) := by
  constructor
  · intro h
    have hcond : (username == "" || password == "") = true := by
      rcases h with h | h <;> simp [h]
    simp [login, hcond]
  · intro hu hp
    have hcond : (username == "" || password == "") = false := by simp [hu, hp]
    cases hfind : st.teachers.find? (fun t =>
        strLower t.username == strLower username && t.password == hash password) with
    | none =>
      have hres : login hash username password st
          = (Except.error Err.authentication, st) := by
        simp [login, hcond, hfind]
      refine ⟨⟨?_, ?_⟩, ?_, ?_⟩
      · rintro ⟨t, hmem, h1, h2⟩
        have := List.find?_eq_none.mp hfind t hmem
        simp [h1, h2] at this
      · rintro ⟨sess, hsess⟩
        rw [hres] at hsess
        simp at hsess
      · intro e he
        rw [hres] at he
        simp at he
        exact ⟨he.symm ▸ rfl, by rw [hres]⟩
      · intro sess hsess
        rw [hres] at hsess
        simp at hsess
    | some t =>
      have hpred := List.find?_some hfind
      have hmem := List.mem_of_find?_eq_some hfind
      simp only [Bool.and_eq_true, beq_iff_eq] at hpred
      have hres : login hash username password st
          = (Except.ok ⟨t.id, t.username, t.createdAt⟩,
             { st with currentUser := some ⟨t.id, t.username, t.createdAt⟩ }) := by
        simp [login, hcond, hfind]
      refine ⟨⟨fun _ => ⟨_, by rw [hres]⟩, fun _ => ⟨t, hmem, hpred.1, hpred.2⟩⟩,
        ?_, ?_⟩
      · intro e he
        rw [hres] at he
        simp at he
      · intro sess hsess
        have hsesseq : sess = ⟨t.id, t.username, t.createdAt⟩ := by
          rw [hres] at hsess
          simpa using hsess.symm
        subst hsesseq
        exact ⟨t, hmem, hpred.1, hpred.2, rfl, by rw [hres]⟩

/-- A concrete digest function for running the auth theorems. -/
def demoHash (password : String) : String := "#" ++ password

def demoTeacher : Teacher := ⟨"t1", "Alice", "#pw", "c1"⟩

def demoAuth : AppState := ⟨[demoTeacher], [], none⟩

def emptyState : AppState := ⟨[], [], none⟩

/-- A concrete run of C2: logging in as "alice" with the right password yields
teacher t1's session, digest excluded. -/
theorem C2_witness :
    ¬ ("alice" = "") ∧ ¬ ("pw" = "") ∧
    ∃ t ∈ demoAuth.teachers, strLower t.username = strLower "alice" ∧
      t.password = demoHash "pw" ∧
      (⟨"t1", "Alice", "c1"⟩ : Session) = ⟨t.id, t.username, t.createdAt⟩ ∧
      (login demoHash "alice" "pw" demoAuth).2
        = { demoAuth with currentUser := some ⟨"t1", "Alice", "c1"⟩ } :=
  ⟨by decide, by decide,
    ((C2_login demoHash "alice" "pw" demoAuth).2 (by decide) (by decide)).2.2
      ⟨"t1", "Alice", "c1"⟩ (by rfl)⟩

/-- Auth.register: trimmed-username and password length validation, the
case-insensitive conflict check against the raw input username, append of the
new teacher carrying the digest, then the non-awaited auto-login with the same
raw credentials — its session write lands, but its failure does not fail
register. -/
def register (hash : String → String) (username password : String)
    (freshId now : String) (st : AppState) : Except Err Teacher × AppState :=
  if username == "" || (strTrim username).length < 3 then
    (Except.error Err.validation, st)
  else if password == "" || password.length < 4 then
    (Except.error Err.validation, st)
  else if st.teachers.any (fun t => strLower t.username == strLower username) then
    (Except.error Err.conflict, st)
  else
    let newTeacher : Teacher := ⟨freshId, strTrim username, hash password, now⟩
    let st1 : AppState := { st with teachers := st.teachers ++ [newTeacher] }
    (Except.ok newTeacher, (login hash username password st1).2)

theorem login_preserves_collections (hash : String → String)
    (username password : String) (st : AppState) :
    (login hash username password st).2.teachers = st.teachers ∧
    (login hash username password st).2.students = st.students := by
  unfold login
  dsimp only
  split
  · exact ⟨rfl, rfl⟩
  · split <;> exact ⟨rfl, rfl⟩

theorem find?_append_of_none {α : Type} (p : α → Bool) (l1 l2 : List α)
    (h : ∀ a ∈ l1, p a = false) : (l1 ++ l2).find? p = l2.find? p := by
  induction l1 with
  | nil => rfl
  | cons a rest ih =>
    rw [List.cons_append, List.find?_cons_of_neg _ (by simp [h a (by simp)]),
      ih fun x hx => h x (by simp [hx])]

/-- C3 as written fails on the code: username "ab " has length 3 yet register
raises ValidationError (the code measures the trimmed name), and username
" abc " with a valid password registers successfully yet leaves no active
session (the auto-login looks up the raw name and misses the trimmed stored
record). -/
theorem C3_counterexample :
    (¬ ("ab ".length < 3 ∨ "1234".length < 4) ∧
      (register demoHash "ab " "1234" "t9" "c9" emptyState).1
        = Except.error Err.validation) ∧
    ((register demoHash " abc " "1234" "t9" "c9" emptyState).1
        = Except.ok ⟨"t9", "abc", demoHash "1234", "c9"⟩ ∧
      (register demoHash " abc " "1234" "t9" "c9" emptyState).2.currentUser
        = none) :=
  ⟨⟨by decide, by rfl⟩, by rfl, by rfl⟩

/-- C3 (amended): register fails with ValidationError exactly when the trimmed
username is shorter than 3 characters or the password shorter than 4; given
valid lengths it fails with ConflictError exactly when a stored teacher
matches the raw input username case-insensitively; otherwise it appends
exactly one Teacher carrying the password digest and performs login with the
same raw credentials, so that whenever the username carries no surrounding
whitespace a successful registration leaves an active Session whose id is the
new teacher's freshly generated id. -/
theorem C3_register (hash : String → String)
    (username password freshId now : String) (st : AppState) :
    ((register hash username password freshId now st).1
        = Except.error Err.validation ↔
      (strTrim username).length < 3 ∨ password.length < 4) ∧
    (¬ ((strTrim username).length < 3 ∨ password.length < 4) →
      ((register hash username password freshId now st).1
          = Except.error Err.conflict ↔
        ∃ t ∈ st.teachers, strLower t.username = strLower username)) ∧
    (¬ ((strTrim username).length < 3 ∨ password.length < 4) →
      (∀ t ∈ st.teachers, strLower t.username ≠ strLower username) →
      (register hash username password freshId now st).1
          = Except.ok ⟨freshId, strTrim username, hash password, now⟩ ∧
      (register hash username password freshId now st).2.teachers
          = st.teachers ++ [⟨freshId, strTrim username, hash password, now⟩] ∧
      (register hash username password freshId now st).2.students = st.students ∧
      (strTrim username = username →
        (register hash username password freshId now st).2.currentUser
          = some ⟨freshId, username, now⟩)) := by
  by_cases h1 : (strTrim username).length < 3
  · have hcond1 : (username == "" || (strTrim username).length < 3) = true := by
      simp [h1]
    refine ⟨by simp [register, hcond1, h1], fun h => absurd (Or.inl h1) h,
      fun h => absurd (Or.inl h1) h⟩
  · have humpty : username ≠ "" := by
      intro h
      subst h
      exact h1 (by decide)
    have hcond1 : (username == "" || (strTrim username).length < 3) = false := by
      simp [humpty, h1]
    by_cases h2 : password.length < 4
    · have hcond2 : (password == "" || password.length < 4) = true := by simp [h2]
      refine ⟨by simp [register, hcond1, hcond2, h1, h2],
        fun h => absurd (Or.inr h2) h, fun h => absurd (Or.inr h2) h⟩
    · have hpw : password ≠ "" := by
        intro h
        subst h
        exact h2 (by decide)
      have hcond2 : (password == "" || password.length < 4) = false := by
        simp [hpw, h2]
      by_cases hdup : ∃ t ∈ st.teachers, strLower t.username = strLower username
      · have hany : (st.teachers.any
            (fun t => strLower t.username == strLower username)) = true := by
          obtain ⟨t, hmem, ht⟩ := hdup
          exact List.any_eq_true.mpr ⟨t, hmem, by simp [ht]⟩
        refine ⟨by simp [register, hcond1, hcond2, hany, h1, h2, humpty, hpw],
          fun _ => ⟨fun _ => hdup, fun _ => by simp [register, hcond1, hcond2, hany]⟩,
          fun _ hno => ?_⟩
        obtain ⟨t, hmem, ht⟩ := hdup
        exact absurd ht (hno t hmem)
      · have hany : (st.teachers.any
            (fun t => strLower t.username == strLower username)) = false := by
          rw [Bool.eq_false_iff]
          intro hc
          obtain ⟨t, hmem, ht⟩ := List.any_eq_true.mp hc
          exact hdup ⟨t, hmem, by simpa using ht⟩
        have hok : (register hash username password freshId now st).1
            = Except.ok ⟨freshId, strTrim username, hash password, now⟩ := by
          simp [register, hcond1, hcond2, hany]
        have hst2 : (register hash username password freshId now st).2
            = (login hash username password
                { st with teachers := st.teachers
                    ++ [⟨freshId, strTrim username, hash password, now⟩] }).2 := by
          simp [register, hcond1, hcond2, hany]
        refine ⟨?_, fun _ => ⟨?_, ?_⟩, fun _ hno => ⟨hok, ?_, ?_, ?_⟩⟩
        · constructor
          · intro h
            rw [hok] at h
            exact absurd h (by simp)
          · intro h
            rcases h with h | h
            · exact absurd h h1
            · exact absurd h h2
        · intro h
          rw [hok] at h
          exact absurd h (by simp)
        · intro h
          exact absurd h hdup
        · rw [hst2, (login_preserves_collections hash username password _).1]
        · rw [hst2, (login_preserves_collections hash username password _).2]
        · intro htrim
          have hlcond : ¬ ((username == "" || password == "") = true) := by
            simp [humpty, hpw]
          have hfind2 : (st.teachers
                ++ [(⟨freshId, strTrim username, hash password, now⟩ : Teacher)]).find?
              (fun t => strLower t.username == strLower username
                && t.password == hash password)
              = some ⟨freshId, strTrim username, hash password, now⟩ := by
            rw [find?_append_of_none _ st.teachers _
              (fun t hmem => by simp [hno t hmem])]
            exact List.find?_cons_of_pos _ (by simp [htrim])
          have hlogin : (login hash username password
              { st with teachers := st.teachers
                  ++ [⟨freshId, strTrim username, hash password, now⟩] }).2.currentUser
              = some ⟨freshId, strTrim username, now⟩ := by
            unfold login
            rw [if_neg hlcond]
            dsimp only
            rw [hfind2]
          rw [hst2, hlogin, htrim]

/-- A concrete run of C3 (amended): registering "bob"/"1234" on the empty state
appends teacher t9 and leaves its session active. -/
theorem C3_witness :
    ¬ ((strTrim "bob").length < 3 ∨ "1234".length < 4) ∧
    (register demoHash "bob" "1234" "t9" "c9" emptyState).1
      = Except.ok ⟨"t9", strTrim "bob", demoHash "1234", "c9"⟩ ∧
    (register demoHash "bob" "1234" "t9" "c9" emptyState).2.currentUser
      = some ⟨"t9", "bob", "c9"⟩ := by
  have h := (C3_register demoHash "bob" "1234" "t9" "c9" emptyState).2.2
    (by decide) (by decide)
  exact ⟨by decide, h.1, h.2.2.2 (by decide)⟩

/-- Storage.getItem: raw lookup, JS falsy guard on the raw string, then the
guarded JSON parse; a deserialization failure is caught and the
caller-supplied default returned. -/
def getItem {V : Type} (parse : String → Except String V)
    (store : String → Option String) (key : String) (defaultValue : V) : V :=
  match store key with
  | none => defaultValue
  | some raw =>
    if raw == "" then defaultValue
    else
      match parse raw with
      | Except.ok v => v
      | Except.error _ => defaultValue

/-- Storage.setItem: stringify then write, catching any failure (e.g. quota
exceeded) into a `false` return with the store untouched. -/
def setItem {V S : Type} (stringify : V → Except String String)
    (write : S → String → String → Option S) (store : S) (key : String)
    (data : V) : Bool × S :=
  match stringify data with
  | Except.error _ => (false, store)
  | Except.ok str =>
    match write store key str with
    | none => (false, store)
    | some store2 => (true, store2)

/-- C5: the persistence adapter never propagates an exception — `getItem`
always returns a plain value, the caller-supplied default whenever the key is
absent, the raw value falsy, or deserialization fails; `setItem` always
returns a flag, `false` with the store untouched whenever stringification or
the underlying write fails, `true` with the written store otherwise. -/
theorem C5_storage {V S : Type} (parse : String → Except String V)
    (stringify : V → Except String String)
    (write : S → String → String → Option S) (store : String → Option String)
    (st : S) (key : String) (defaultValue : V) (data : V) :
    (store key = none → getItem parse store key defaultValue = defaultValue) ∧
    (∀ raw, store key = some raw → raw = "" →
      getItem parse store key defaultValue = defaultValue) ∧
    (∀ raw e, store key = some raw → parse raw = Except.error e →
      getItem parse store key defaultValue = defaultValue) ∧
    (∀ raw v, store key = some raw → raw ≠ "" → parse raw = Except.ok v →
      getItem parse store key defaultValue = v) ∧
    (∀ e, stringify data = Except.error e →
      setItem stringify write st key data = (false, st)) ∧
    (∀ str, stringify data = Except.ok str → write st key str = none →
      setItem stringify write st key data = (false, st)) ∧
    (∀ str st2, stringify data = Except.ok str → write st key str = some st2 →
      setItem stringify write st key data = (true, st2)) := by
  refine ⟨?_, ?_, ?_, ?_, ?_, ?_, ?_⟩
  · intro h
    simp [getItem, h]
  · intro raw h hraw
    subst hraw
    simp [getItem, h]
  · intro raw e h hparse
    cases hraw : raw == "" <;> simp [getItem, h, hraw, hparse]
  · intro raw v h hraw hparse
    have hraw2 : (raw == "") = false := by simp [hraw]
    simp [getItem, h, hraw2, hparse]
  · intro e h
    simp [setItem, h]
  · intro str h hw
    simp [setItem, h, hw]
  · intro str st2 h hw
    simp [setItem, h, hw]

/-- A concrete run of C5: a stored string the parser rejects yields the
default, and a refused write yields `false` with the store unchanged. -/
theorem C5_witness :
    getItem (fun _ => (Except.error "bad" : Except String Nat))
      (fun _ => some "raw") "k" 42 = 42 ∧
    setItem (fun n => Except.ok (toString n)) (fun _ _ _ => (none : Option Nat))
      0 "k" 7 = (false, 0) :=
  ⟨(C5_storage (fun _ => (Except.error "bad" : Except String Nat))
      (fun n => Except.ok (toString n)) (fun _ _ _ => (none : Option Nat))
      (fun _ => some "raw") 0 "k" 42 7).2.2.1 "raw" "bad" rfl rfl,
    (C5_storage (fun _ => (Except.error "bad" : Except String Nat))
      (fun n => Except.ok (toString n)) (fun _ _ _ => (none : Option Nat))
      (fun _ => some "raw") 0 "k" 42 7).2.2.2.2.2.1 "7" rfl rfl⟩

/-- One record's status is one of the three literals the code ever writes. -/
abbrev wfStatus (s : Student) : Prop :=
  s.status = "Present" ∨ s.status = "Absent" ∨ s.status = "Unmarked"

/-- The implicit collection invariant behind the dashboard counts. -/
abbrev statusWF (students : List Student) : Prop :=
  ∀ s ∈ students, wfStatus s

theorem toggleAttendance_ok (id : String) (students result : List Student)
    (h : toggleAttendance id students = Except.ok result) :
    result = updateFirst id
      (fun s => { s with status := toggleStatus s.status }) students := by
  unfold toggleAttendance at h
  split at h
  · simpa using h.symm
  · exact absurd h (by simp)

theorem editStudent_ok (sessionTeacherId recordId name studentIdInput course : String)
    (year : Nat) (students result : List Student)
    (h : editStudent sessionTeacherId recordId name studentIdInput course year students
      = Except.ok result) :
    result = updateFirst recordId
      (editFields name studentIdInput course year) students := by
  unfold editStudent at h
  split at h
  · exact absurd h (by simp)
  · split at h
    · split at h
      · exact absurd h (by simp)
      · simpa using h.symm
    · exact absurd h (by simp)

theorem deleteStudent_ok (id : String) (students result : List Student)
    (h : deleteStudent id students = Except.ok result) :
    result = students.filter (fun s => s.id != id) := by
  unfold deleteStudent at h
  split at h
  · simpa using h.symm
  · exact absurd h (by simp)

theorem statusWF_updateFirst (id : String) (f : Student → Student)
    (students : List Student) (h : statusWF students)
    (hf : ∀ s ∈ students, wfStatus (f s)) :
    statusWF (updateFirst id f students) := by
  induction students with
  | nil => simp [updateFirst, statusWF]
  | cons a rest ih =>
    intro s hs
    cases ha : a.id == id with
    | true =>
      rw [updateFirst, if_pos ha] at hs
      rcases List.mem_cons.mp hs with rfl | hs
      · exact hf a (by simp)
      · exact h s (by simp [hs])
    | false =>
      rw [updateFirst, if_neg (by simp [ha])] at hs
      rcases List.mem_cons.mp hs with rfl | hs
      · exact h s (by simp)
      · exact ih (fun x hx => h x (by simp [hx])) (fun x hx => hf x (by simp [hx])) s hs

theorem length_eq_status_counts (students : List Student) (h : statusWF students) :
    students.length
      = (students.filter (fun s => s.status == "Present")).length
        + (students.filter (fun s => s.status == "Absent")).length
        + (students.filter (fun s => s.status == "Unmarked")).length := by
  induction students with
  | nil => rfl
  | cons a rest ih =>
    have ha := h a (by simp)
    have ihr := ih fun s hs => h s (by simp [hs])
    rcases ha with h1 | h1 | h1 <;>
      simp [List.filter_cons, h1, ihr] <;> omega

/-- C10: every roster operation preserves the three-literal status invariant —
add writes Unmarked, toggle writes only Present or Absent, edit leaves the
status untouched, delete only removes — and on every collection satisfying it
the dashboard counts satisfy total = present + absent + unmarked. -/
theorem C10_invariant :
    (∀ teacherId name studentId course year freshId now
        (students result : List Student), statusWF students →
      addStudent teacherId name studentId course year freshId now students
        = Except.ok result → statusWF result) ∧
    (∀ sessionTeacherId recordId name studentIdInput course year
        (students result : List Student), statusWF students →
      editStudent sessionTeacherId recordId name studentIdInput course year students
        = Except.ok result → statusWF result) ∧
    (∀ id (students result : List Student), statusWF students →
      toggleAttendance id students = Except.ok result → statusWF result) ∧
    (∀ id (students result : List Student), statusWF students →
      deleteStudent id students = Except.ok result → statusWF result) ∧
    (∀ students : List Student, statusWF students →
      (updateStats students).total
        = (updateStats students).present + (updateStats students).absent
          + (updateStats students).unmarked) := by
  refine ⟨?_, ?_, ?_, ?_, ?_⟩
  · intro teacherId name studentId course year freshId now students result h hok
    rw [addStudent_ok teacherId name studentId course year freshId now
      students result hok]
    intro s hs
    rcases List.mem_append.mp hs with hs | hs
    · exact h s hs
    · rcases List.mem_singleton.mp hs with rfl
      exact Or.inr (Or.inr rfl)
  · intro sessionTeacherId recordId name studentIdInput course year students result h hok
    rw [editStudent_ok sessionTeacherId recordId name studentIdInput course year
      students result hok]
    exact statusWF_updateFirst recordId _ students h
      (fun s hs => h s hs)
  · intro id students result h hok
    rw [toggleAttendance_ok id students result hok]
    refine statusWF_updateFirst id _ students h (fun s _ => ?_)
    show toggleStatus s.status = "Present" ∨ toggleStatus s.status = "Absent"
      ∨ toggleStatus s.status = "Unmarked"
    unfold toggleStatus
    split
    · exact Or.inr (Or.inl rfl)
    · exact Or.inl rfl
  · intro id students result h hok
    rw [deleteStudent_ok id students result hok]
    intro s hs
    exact h s (List.mem_of_mem_filter hs)
  · intro students h
    exact length_eq_status_counts students h

/-- A concrete run of C10: toggling s4 (Unmarked) keeps the demo roster
well-formed and the counts keep summing to the total. -/
theorem C10_witness :
    statusWF (updateFirst "s4"
      (fun s => { s with status := toggleStatus s.status }) demoRoster) ∧
    (updateStats demoRoster).total
      = (updateStats demoRoster).present + (updateStats demoRoster).absent
        + (updateStats demoRoster).unmarked :=
  ⟨C10_invariant.2.2.1 "s4" demoRoster
      (updateFirst "s4" (fun s => { s with status := toggleStatus s.status }) demoRoster)
      (by decide) (by rfl),
    C10_invariant.2.2.2.2 demoRoster (by decide)⟩

end Attendance
